/- Verification of the eww-notifier notification store and image cache.

   The definitions below are shallow embeddings of the Python sources:
   - eww_notifier/notification_queue/notification_queue.py  (NotificationQueue)
   - eww_notifier/notifier/notification_processor.py        (NotificationProcessor)
   - eww_notifier/spotify/album_art_handler.py              (AlbumArtHandler, production)
   - Testing/spotify/album_art_handler.py                   (AlbumArtHandler, draft)

   Wall-clock instants and durations are modelled as rationals (Python floats
   carry exact small decimal values in all scenarios of interest); the
   filesystem is modelled as explicit lists of file records; the network is
   modelled by a boolean outcome parameter per download attempt. -/

import Mathlib

/-- Configuration constant MAX_NOTIFICATIONS (config.py, default "50"). -/
def MAX_NOTIFICATIONS : Nat := 50

/-- Configuration constant DEFAULT_TIMEOUT in milliseconds (config.py, default "5000"). -/
def DEFAULT_TIMEOUT : ℚ := 5000

/-- Configuration constant UPDATE_COOLDOWN in seconds (config.py, default "0.1"). -/
def UPDATE_COOLDOWN : ℚ := 1/10

/-- Configuration constant SPOTIFY_CACHE_MAX_SIZE in bytes (config.py, 100 MiB). -/
def SPOTIFY_CACHE_MAX_SIZE : ℚ := 100 * 1024 * 1024

/-- Configuration constant SPOTIFY_CACHE_MAX_AGE in seconds (config.py, 7 days). -/
def SPOTIFY_CACHE_MAX_AGE : ℚ := 7 * 24 * 60 * 60

/-- A notification dictionary as the queue sees it: the `notification_id`,
`timestamp` and `expire_timeout` keys may be absent (Python `dict.get`),
every other field is opaque to the queue and folded into `payload`. -/
structure Notif where
  notification_id : Option String
  timestamp : Option ℚ
  expire_timeout : Option ℚ
  payload : String
deriving DecidableEq

/-- Python `n.get('timestamp', 0)`. -/
def tsOr0 (n : Notif) : ℚ := n.timestamp.getD 0

/-- Python `n.get('expire_timeout', DEFAULT_TIMEOUT)`. -/
def expOrDefault (n : Notif) : ℚ := n.expire_timeout.getD DEFAULT_TIMEOUT

/-- The freshness test of `_cleanup_old_notifications` (notification_queue.py:164):
`current_time - n.get('timestamp', 0) <= n.get('expire_timeout', DEFAULT_TIMEOUT) / 1000`. -/
def isFresh (now : ℚ) (n : Notif) : Bool :=
  decide (now - tsOr0 n ≤ expOrDefault n / 1000)

/-- Backfilling of missing `timestamp` / `expire_timeout` keys, shared by
`add_notification` (lines 201-206) and `_load_notifications` (lines 98-103). -/
def backfill (now : ℚ) (n : Notif) : Notif :=
  { n with
    timestamp := some (n.timestamp.getD now),
    expire_timeout := some (n.expire_timeout.getD DEFAULT_TIMEOUT) }

/-- List effect of `_save_notifications` (notification_queue.py:128-149): the
list is trimmed to MAX_NOTIFICATIONS and that trimmed list is both kept in
memory and written to the snapshot file. -/
def save_notifications (l : List Notif) : List Notif :=
  if l.length > MAX_NOTIFICATIONS then l.take MAX_NOTIFICATIONS else l

/-- List effect of `_cleanup_old_notifications` (notification_queue.py:151-188):
drop expired records; if any were dropped, `_save_notifications` runs (trimming
to MAX_NOTIFICATIONS); otherwise a trim to MAX_NOTIFICATIONS runs if the list
is over capacity. -/
def cleanup_old_notifications (now : ℚ) (l : List Notif) : List Notif :=
  let kept := l.filter (isFresh now)
  if kept.length < l.length then save_notifications kept
  else if l.length > MAX_NOTIFICATIONS then l.take MAX_NOTIFICATIONS
  else l

/-- `add_notification` (notification_queue.py:190-222): backfill missing keys,
insert at the head, trim to MAX_NOTIFICATIONS, then run the cleanup pass. -/
def add_notification (now : ℚ) (notification : Notif) (l : List Notif) : List Notif :=
  let n := backfill now notification
  let l1 := n :: l
  let l2 := if l1.length > MAX_NOTIFICATIONS then l1.take MAX_NOTIFICATIONS else l1
  cleanup_old_notifications now l2

/-- `remove_notification` (notification_queue.py:224-241): keep records whose
`notification_id` differs from the argument; the boolean records whether the
snapshot was persisted and a widget update signalled (only when the length
actually decreased). -/
def remove_notification (notification_id : String) (l : List Notif) :
    List Notif × Bool :=
  let kept := l.filter (fun n => decide (n.notification_id ≠ some notification_id))
  if kept.length < l.length then (save_notifications kept, true) else (l, false)

/-- `get_notifications` (notification_queue.py:243-258): run the cleanup pass,
then return the collection. -/
def get_notifications (now : ℚ) (l : List Notif) : List Notif :=
  cleanup_old_notifications now l

/-- `get_notification` (notification_queue.py:321-340): linear scan for the
first record whose `notification_id` equals the argument; no cleanup runs. -/
def get_notification (notification_id : String) (l : List Notif) : Option Notif :=
  l.find? (fun n => decide (n.notification_id = some notification_id))

/-- `should_update` (notification_queue.py:274-284) acting on the
`last_update` field: returns the boolean result and the new `last_update`. -/
def should_update (now : ℚ) (last_update : ℚ) : Bool × ℚ :=
  if now - last_update ≥ UPDATE_COOLDOWN then (true, now) else (false, last_update)

/-- List content of the snapshot produced by `_load_notifications`
(notification_queue.py:68-126): backfill missing keys, drop records already
expired at load time, sort by timestamp most-recent-first (Python's stable
`sorted` with `reverse=True`), and trim to MAX_NOTIFICATIONS. -/
def insertDescByTs (x : Notif) : List Notif → List Notif
  | [] => [x]
  | y :: ys => if tsOr0 y > tsOr0 x then y :: insertDescByTs x ys else x :: y :: ys

/-- Stable most-recent-first sort by `x.get('timestamp', 0)`, matching Python's
`sorted(valid_notifications, key=lambda x: x.get('timestamp', 0), reverse=True)`:
keys are non-increasing and records with equal keys keep their original order. -/
def sortDescByTs (l : List Notif) : List Notif :=
  l.foldr insertDescByTs []

/-- `_load_notifications` (notification_queue.py:68-126) applied to a parsed
snapshot content: backfill, expiry filter, stable sort, capacity trim. -/
def load_notifications (now : ℚ) (file : List Notif) : List Notif :=
  let backfilled := file.map (backfill now)
  let valid := backfilled.filter (isFresh now)
  let sorted := sortDescByTs valid
  if sorted.length > MAX_NOTIFICATIONS then sorted.take MAX_NOTIFICATIONS else sorted

/-- The `expire_timeout` normalization shared by
`NotificationProcessor.process_notification_data` (notification_processor.py:139)
and `NotificationHandler.Notify` (notification_handler.py:101):
`expire_timeout if expire_timeout > 0 else DEFAULT_TIMEOUT`. -/
def normalize_expire_timeout (expire_timeout : ℤ) : ℚ :=
  if expire_timeout > 0 then (expire_timeout : ℚ) else DEFAULT_TIMEOUT

/-- The record built by `process_notification_data`
(notification_processor.py:128-140), restricted to the fields the queue
inspects: the timestamp is the ingestion clock and `expire_timeout` is the
normalized caller value. -/
def process_notification_data (now : ℚ) (notif_id : String) (expire_timeout : ℤ)
    (payload : String) : Notif :=
  { notification_id := some notif_id,
    timestamp := some now,
    expire_timeout := some (normalize_expire_timeout expire_timeout),
    payload := payload }

/-- C4: `should_update` returns true exactly when at least UPDATE_COOLDOWN has
elapsed since the previous true result (whose time is held in `last_update`),
resets `last_update` exactly on a true result; hence a second call less than
UPDATE_COOLDOWN after a true first call returns false, and a further call at
least UPDATE_COOLDOWN after the true call returns true. -/
theorem should_update_cooldown_spec (last t1 t2 t3 : ℚ)
    (h1 : (should_update t1 last).1 = true)
    (h2 : t2 - t1 < UPDATE_COOLDOWN)
    (h3 : t3 - t1 ≥ UPDATE_COOLDOWN) :
    (∀ t l : ℚ, ((should_update t l).1 = true ↔ t - l ≥ UPDATE_COOLDOWN) ∧
      (should_update t l).2 = (if (should_update t l).1 then t else l)) ∧
    (should_update t1 last).2 = t1 ∧
    should_update t2 (should_update t1 last).2 = (false, t1) ∧
    (should_update t3 (should_update t2 (should_update t1 last).2).2).1 = true := by
  have hgen : ∀ t l : ℚ, ((should_update t l).1 = true ↔ t - l ≥ UPDATE_COOLDOWN) ∧
      (should_update t l).2 = (if (should_update t l).1 then t else l) := by
    intro t l
    unfold should_update
    by_cases h : t - l ≥ UPDATE_COOLDOWN <;> simp [h]
  have hreset : (should_update t1 last).2 = t1 := by
    unfold should_update at h1 ⊢
    by_cases h : t1 - last ≥ UPDATE_COOLDOWN
    · simp [h]
    · simp [h] at h1
  refine ⟨hgen, hreset, ?_, ?_⟩
  · rw [hreset]
    unfold should_update
    have : ¬ (t2 - t1 ≥ UPDATE_COOLDOWN) := not_le.mpr h2
    simp [this]
  · rw [hreset]
    have hsnd : (should_update t2 t1).2 = t1 := by
      unfold should_update
      have : ¬ (t2 - t1 ≥ UPDATE_COOLDOWN) := not_le.mpr h2
      simp [this]
    rw [hsnd]
    unfold should_update
    simp [h3]

/-- C4 witness: concrete instance with last = 0, calls at 100, 100.05, 100.2. -/
theorem should_update_cooldown_spec_witness :
    ((should_update 100 0).1 = true) ∧
    ((100 + 1/20 : ℚ) - 100 < UPDATE_COOLDOWN) ∧
    ((100 + 1/5 : ℚ) - 100 ≥ UPDATE_COOLDOWN) ∧
    (should_update (100 + 1/20) (should_update 100 0).2 = (false, 100) ∧
      (should_update (100 + 1/5)
        (should_update (100 + 1/20) (should_update 100 0).2).2).1 = true) :=
  ⟨by with_unfolding_all decide, by norm_num [UPDATE_COOLDOWN],
    by norm_num [UPDATE_COOLDOWN],
    (should_update_cooldown_spec 0 100 (100 + 1/20) (100 + 1/5)
      (by with_unfolding_all decide) (by norm_num [UPDATE_COOLDOWN])
      (by norm_num [UPDATE_COOLDOWN])).2.2⟩

/-- C10: ingestion replaces a non-positive `expire_timeout` with
DEFAULT_TIMEOUT, so every record built by `process_notification_data` carries a
strictly positive (finite) `expire_timeout`. -/
theorem process_notification_data_timeout_positive (now : ℚ) (notif_id : String)
    (expire_timeout : ℤ) (payload : String)
    (hle : expire_timeout ≤ 0) :
    (process_notification_data now notif_id expire_timeout payload).expire_timeout
      = some DEFAULT_TIMEOUT ∧
    ∀ et : ℤ, ∃ q : ℚ, 0 < q ∧
      (process_notification_data now notif_id et payload).expire_timeout = some q := by
  constructor
  · have : ¬ (expire_timeout > 0) := not_lt.mpr hle
    simp [process_notification_data, normalize_expire_timeout, this]
  · intro et
    refine ⟨normalize_expire_timeout et, ?_, rfl⟩
    unfold normalize_expire_timeout
    by_cases h : et > 0
    · rw [if_pos h]
      exact_mod_cast h
    · rw [if_neg h]
      norm_num [DEFAULT_TIMEOUT]

/-- C10 witness: a Notify call with `expire_timeout = 0` is stored with
DEFAULT_TIMEOUT, and stored timeouts are always positive. -/
theorem process_notification_data_timeout_positive_witness :
    (process_notification_data 10 "1" 0 "hello").expire_timeout
      = some DEFAULT_TIMEOUT ∧
    ∀ et : ℤ, ∃ q : ℚ, 0 < q ∧
      (process_notification_data 10 "1" et "hello").expire_timeout = some q :=
  process_notification_data_timeout_positive 10 "1" 0 "hello" (by decide)

/-- Helper: a filter that keeps the whole length keeps every element. -/
theorem all_of_filter_length_eq {α : Type} (p : α → Bool) (l : List α)
    (h : (l.filter p).length = l.length) : ∀ a ∈ l, p a = true := by
  have hs : (l.filter p).Sublist l := List.filter_sublist l
  have : l.filter p = l := hs.eq_of_length h
  exact List.filter_eq_self.mp this

/-- Helper: `_save_notifications` never leaves more than MAX_NOTIFICATIONS. -/
theorem save_notifications_length_le (l : List Notif) :
    (save_notifications l).length ≤ MAX_NOTIFICATIONS := by
  unfold save_notifications
  by_cases h : l.length > MAX_NOTIFICATIONS
  · simp [h, List.length_take]
  · simp only [h, if_false]
    omega

/-- Helper: the cleanup pass never leaves more than MAX_NOTIFICATIONS. -/
theorem cleanup_length_le (now : ℚ) (l : List Notif) :
    (cleanup_old_notifications now l).length ≤ MAX_NOTIFICATIONS := by
  unfold cleanup_old_notifications
  by_cases h1 : (l.filter (isFresh now)).length < l.length
  · simp only [h1, if_true]
    exact save_notifications_length_le _
  · simp only [h1, if_false]
    by_cases h2 : l.length > MAX_NOTIFICATIONS
    · simp [h2, List.length_take]
    · simp only [h2, if_false]
      omega

/-- Helper: the cleanup pass is the identity on a list of fresh records that
is within capacity. -/
theorem cleanup_eq_self_of_fresh (now : ℚ) (l : List Notif)
    (hf : ∀ m ∈ l, isFresh now m = true) (hlen : l.length ≤ MAX_NOTIFICATIONS) :
    cleanup_old_notifications now l = l := by
  unfold cleanup_old_notifications
  have hfil : l.filter (isFresh now) = l := List.filter_eq_self.mpr hf
  rw [hfil]
  simp only [lt_irrefl, if_false]
  have : ¬ (l.length > MAX_NOTIFICATIONS) := not_lt.mpr hlen
  simp [this]

/-- C1 (amended): every `add_notification` leaves at most MAX_NOTIFICATIONS
records; and provided the collection extended by the new (backfilled) record is
ordered most-recent-first by timestamp and contains no expired record, the add
is exactly a head insertion followed by a trim of the list tail, so every
discarded record is at least as old as every retained one (ties broken by
insertion order: the later-listed, earlier-inserted ones go first). -/
theorem add_notification_capacity_trims_oldest (now : ℚ) (notification : Notif)
    (l : List Notif)
    (hsort : List.Pairwise (fun a b => tsOr0 b ≤ tsOr0 a)
      (backfill now notification :: l))
    (hfresh : ∀ m ∈ backfill now notification :: l, isFresh now m = true) :
    (∀ (now' : ℚ) (n' : Notif) (l' : List Notif),
      (add_notification now' n' l').length ≤ MAX_NOTIFICATIONS) ∧
    add_notification now notification l
      = (backfill now notification :: l).take MAX_NOTIFICATIONS ∧
    (∀ d ∈ (backfill now notification :: l).drop MAX_NOTIFICATIONS,
      ∀ r ∈ (backfill now notification :: l).take MAX_NOTIFICATIONS,
        tsOr0 d ≤ tsOr0 r) := by
  refine ⟨?_, ?_, ?_⟩
  · intro now' n' l'
    unfold add_notification
    exact cleanup_length_le _ _
  · unfold add_notification
    set m := backfill now notification with hm
    by_cases h : (m :: l).length > MAX_NOTIFICATIONS
    · simp only [h, if_true]
      apply cleanup_eq_self_of_fresh
      · intro x hx
        exact hfresh x ((List.take_sublist _ _).mem hx)
      · simp [List.length_take]
    · simp only [h, if_false]
      rw [List.take_of_length_le (not_lt.mp h)]
      exact cleanup_eq_self_of_fresh now _ hfresh (not_lt.mp h)
  · intro d hd r hr
    have hsplit := List.take_append_drop MAX_NOTIFICATIONS
      (backfill now notification :: l)
    rw [← hsplit] at hsort
    exact (List.pairwise_append.mp hsort).2.2 r hr d hd

/-- C1 amended-theorem witness: a concrete in-order add on a sorted fresh
store of two records. -/
theorem add_notification_capacity_trims_oldest_witness :
    (List.Pairwise (fun a b => tsOr0 b ≤ tsOr0 a)
      (backfill 10 ⟨some "a", some 5, some 1000000, ""⟩
        :: [⟨some "b", some 3, some 1000000, ""⟩])) ∧
    (∀ m ∈ backfill 10 ⟨some "a", some 5, some 1000000, ""⟩
        :: [⟨some "b", some 3, some 1000000, ""⟩], isFresh 10 m = true) ∧
    add_notification 10 ⟨some "a", some 5, some 1000000, ""⟩
        [⟨some "b", some 3, some 1000000, ""⟩]
      = (backfill 10 ⟨some "a", some 5, some 1000000, ""⟩
        :: [⟨some "b", some 3, some 1000000, ""⟩]).take MAX_NOTIFICATIONS := by
  have h1 : List.Pairwise (fun a b => tsOr0 b ≤ tsOr0 a)
      (backfill 10 ⟨some "a", some 5, some 1000000, ""⟩
        :: [⟨some "b", some 3, some 1000000, ""⟩]) := by
    with_unfolding_all decide
  have h2 : ∀ m ∈ backfill 10 ⟨some "a", some 5, some 1000000, ""⟩
      :: [⟨some "b", some 3, some 1000000, ""⟩], isFresh 10 m = true := by
    with_unfolding_all decide
  exact ⟨h1, h2,
    (add_notification_capacity_trims_oldest 10 ⟨some "a", some 5, some 1000000, ""⟩
      [⟨some "b", some 3, some 1000000, ""⟩] h1 h2).2.1⟩


/-- A notification used in the C1 counterexample: caller-supplied timestamp
`j` seconds, a 1000000 ms expire_timeout, opaque payload. -/
def c1NotifN (j : ℕ) : Notif := ⟨some "n", some (j : ℚ), some 1000000, ""⟩

/-- The ascending segment `[c1NotifN j, c1NotifN (j+1), ..., c1NotifN (j+k-1)]`. -/
def c1AscAux : ℕ → ℕ → List Notif
  | 0, _ => []
  | k + 1, j => c1NotifN j :: c1AscAux k (j + 1)

/-- The store after `k` successive `add_notification` calls at clock 50 whose
caller-supplied timestamps descend 50, 49, ..., 51 - k. -/
def c1Build : ℕ → List Notif
  | 0 => []
  | k + 1 => add_notification 50 (c1NotifN (50 - k)) (c1Build k)

/-- The store after one further `add_notification` whose caller-supplied
timestamp 0 is older than everything in the store. -/
def c1Final : List Notif := add_notification 50 (c1NotifN 0) (c1Build 50)

/-- Helper: every C1 record is fresh at clock 50. -/
theorem isFresh_c1NotifN (j : ℕ) : isFresh 50 (c1NotifN j) = true := by
  have hj : (0 : ℚ) ≤ (j : ℚ) := Nat.cast_nonneg j
  simp only [isFresh, c1NotifN, tsOr0, expOrDefault, Option.getD_some,
    decide_eq_true_eq]
  norm_num
  linarith

/-- Helper: backfilling does not change a C1 record (both keys present). -/
theorem backfill_c1NotifN (t : ℚ) (j : ℕ) : backfill t (c1NotifN j) = c1NotifN j := by
  simp [backfill, c1NotifN]

/-- Helper: length of the ascending segment. -/
theorem c1AscAux_length (k : ℕ) : ∀ j, (c1AscAux k j).length = k := by
  induction k with
  | zero => intro j; rfl
  | succ k ih => intro j; simp [c1AscAux, ih]

/-- Helper: members of the ascending segment are exactly the records with
index in `[j, j + k)`. -/
theorem c1AscAux_mem (k : ℕ) : ∀ j m, m ∈ c1AscAux k j ↔
    ∃ i, j ≤ i ∧ i < j + k ∧ m = c1NotifN i := by
  induction k with
  | zero =>
    intro j m
    simp only [c1AscAux, List.not_mem_nil, false_iff]
    rintro ⟨i, h1, h2, -⟩
    omega
  | succ k ih =>
    intro j m
    simp only [c1AscAux, List.mem_cons, ih]
    constructor
    · rintro (rfl | ⟨i, h1, h2, rfl⟩)
      · exact ⟨j, le_refl j, by omega, rfl⟩
      · exact ⟨i, by omega, by omega, rfl⟩
    · rintro ⟨i, h1, h2, rfl⟩
      by_cases hij : i = j
      · exact Or.inl (by rw [hij])
      · exact Or.inr ⟨i, by omega, by omega, rfl⟩

/-- Helper: taking from the ascending segment truncates it. -/
theorem c1AscAux_take (k : ℕ) : ∀ j m, (c1AscAux k j).take m = c1AscAux (min m k) j := by
  induction k with
  | zero => intro j m; simp [c1AscAux]
  | succ k ih =>
    intro j m
    cases m with
    | zero => simp [c1AscAux]
    | succ m =>
      simp only [c1AscAux, List.take_succ_cons, ih]
      have : min (m + 1) (k + 1) = min m k + 1 := by omega
      rw [this]
      rfl

/-- Helper: `c1NotifN` is injective (distinct timestamps). -/
theorem c1NotifN_inj {i j : ℕ} (h : c1NotifN i = c1NotifN j) : i = j := by
  have := congrArg (fun n => n.timestamp) h
  simp only [c1NotifN, Option.some.injEq] at this
  exact_mod_cast this

/-- Helper: `add_notification` is a plain head insertion when everything is
fresh and the result stays within capacity. -/
theorem add_notification_eq_cons (now : ℚ) (n : Notif) (l : List Notif)
    (hf : ∀ m ∈ backfill now n :: l, isFresh now m = true)
    (hl : l.length + 1 ≤ MAX_NOTIFICATIONS) :
    add_notification now n l = backfill now n :: l := by
  unfold add_notification
  simp only
  have hlen : ¬ ((backfill now n :: l).length > MAX_NOTIFICATIONS) := by
    simp only [List.length_cons]
    omega
  rw [if_neg hlen]
  exact cleanup_eq_self_of_fresh now _ hf (by simp only [List.length_cons]; omega)

/-- Helper: the seed states of the C1 counterexample are ascending segments. -/
theorem c1Build_eq (k : ℕ) (hk : k ≤ 50) : c1Build k = c1AscAux k (51 - k) := by
  induction k with
  | zero => rfl
  | succ k ih =>
    have hk' : k ≤ 50 := by omega
    have ihe := ih hk'
    show add_notification 50 (c1NotifN (50 - k)) (c1Build k) = _
    rw [ihe]
    have hfresh : ∀ m ∈ backfill 50 (c1NotifN (50 - k)) :: c1AscAux k (51 - k),
        isFresh 50 m = true := by
      intro m hm
      rw [backfill_c1NotifN] at hm
      rcases List.mem_cons.mp hm with rfl | hm'
      · exact isFresh_c1NotifN _
      · rcases (c1AscAux_mem k _ m).mp hm' with ⟨i, -, -, rfl⟩
        exact isFresh_c1NotifN i
    rw [add_notification_eq_cons 50 _ _ hfresh
      (by rw [c1AscAux_length]; unfold MAX_NOTIFICATIONS; omega)]
    rw [backfill_c1NotifN]
    show _ = c1AscAux (k + 1) (51 - (k + 1))
    have h1 : 51 - (k + 1) = 50 - k := by omega
    have h2 : (50 - k) + 1 = 51 - k := by omega
    rw [h1]
    show _ = c1NotifN (50 - k) :: c1AscAux k ((50 - k) + 1)
    rw [h2]

/-- Helper: the final C1 store in closed form. -/
theorem c1Final_eq : c1Final = c1NotifN 0 :: c1AscAux 49 1 := by
  have hb : c1Build 50 = c1AscAux 50 1 := c1Build_eq 50 (by omega)
  show add_notification 50 (c1NotifN 0) (c1Build 50) = _
  rw [hb]
  unfold add_notification
  simp only
  have hlen : (backfill 50 (c1NotifN 0) :: c1AscAux 50 1).length > MAX_NOTIFICATIONS := by
    rw [List.length_cons, c1AscAux_length]
    unfold MAX_NOTIFICATIONS
    omega
  rw [if_pos hlen]
  rw [backfill_c1NotifN]
  have htake : (c1NotifN 0 :: c1AscAux 50 1).take MAX_NOTIFICATIONS
      = c1NotifN 0 :: c1AscAux 49 1 := by
    show (c1NotifN 0 :: c1AscAux 50 1).take 50 = _
    rw [List.take_succ_cons, c1AscAux_take]
    norm_num
  rw [htake]
  apply cleanup_eq_self_of_fresh
  · intro m hm
    rcases List.mem_cons.mp hm with rfl | hm'
    · exact isFresh_c1NotifN 0
    · rcases (c1AscAux_mem 49 1 m).mp hm' with ⟨i, -, -, rfl⟩
      exact isFresh_c1NotifN i
  · rw [List.length_cons, c1AscAux_length]
    unfold MAX_NOTIFICATIONS
    omega

/-- C1 counterexample: starting from an empty store, 50 `add_notification`
calls with caller-supplied timestamps 50, 49, ..., 1 followed by one with
timestamp 0 make the capacity trim discard the record with timestamp 50 — the
newest record by `created_at` — while all 50 strictly older records (including
the timestamp-0 one) are retained, and no record is expired. -/
theorem add_notification_trim_discards_newest_counterexample :
    c1Final.length = MAX_NOTIFICATIONS ∧
    c1NotifN 50 ∈ c1Build 50 ∧
    c1NotifN 50 ∉ c1Final ∧
    c1NotifN 1 ∈ c1Final ∧
    c1NotifN 0 ∈ c1Final ∧
    tsOr0 (c1NotifN 1) < tsOr0 (c1NotifN 50) ∧
    (∀ m ∈ c1NotifN 0 :: c1Build 50, isFresh 50 m = true) := by
  have hb : c1Build 50 = c1AscAux 50 1 := c1Build_eq 50 (by omega)
  refine ⟨?_, ?_, ?_, ?_, ?_, ?_, ?_⟩
  · rw [c1Final_eq, List.length_cons, c1AscAux_length]
    rfl
  · rw [hb, c1AscAux_mem]
    exact ⟨50, by omega, by omega, rfl⟩
  · rw [c1Final_eq]
    intro hmem
    rcases List.mem_cons.mp hmem with heq | hmem'
    · exact absurd (c1NotifN_inj heq) (by omega)
    · rcases (c1AscAux_mem 49 1 _).mp hmem' with ⟨i, h1, h2, heq⟩
      have := c1NotifN_inj heq
      omega
  · rw [c1Final_eq]
    exact List.mem_cons_of_mem _ ((c1AscAux_mem 49 1 _).mpr ⟨1, by omega, by omega, rfl⟩)
  · rw [c1Final_eq]
    exact List.mem_cons_self _ _
  · simp only [c1NotifN, tsOr0, Option.getD_some]
    norm_num
  · intro m hm
    rcases List.mem_cons.mp hm with rfl | hm'
    · exact isFresh_c1NotifN 0
    · rw [hb] at hm'
      rcases (c1AscAux_mem 50 1 m).mp hm' with ⟨i, -, -, rfl⟩
      exact isFresh_c1NotifN i

/-- Helper: `_save_notifications` only ever drops records. -/
theorem mem_save_notifications {n : Notif} {l : List Notif}
    (h : n ∈ save_notifications l) : n ∈ l := by
  unfold save_notifications at h
  by_cases hl : l.length > MAX_NOTIFICATIONS
  · rw [if_pos hl] at h
    exact (List.take_sublist _ _).mem h
  · rwa [if_neg hl] at h

/-- Helper: `_save_notifications` is the identity within capacity. -/
theorem save_notifications_eq_self {l : List Notif}
    (h : l.length ≤ MAX_NOTIFICATIONS) : save_notifications l = l := by
  unfold save_notifications
  rw [if_neg (not_lt.mpr h)]

/-- C2 (amended, positive half): every record returned by `get_notifications`
is fresh at the clock value of the call — the cleanup pass runs first, so an
expired record is never in the result of the next `get_notifications` call. -/
theorem get_notifications_returns_only_fresh (now : ℚ) (l : List Notif)
    (n : Notif) (hn : n ∈ get_notifications now l) : isFresh now n = true := by
  unfold get_notifications cleanup_old_notifications at hn
  simp only at hn
  by_cases h1 : (l.filter (isFresh now)).length < l.length
  · rw [if_pos h1] at hn
    exact (List.mem_filter.mp (mem_save_notifications hn)).2
  · rw [if_neg h1] at hn
    have hall : ∀ a ∈ l, isFresh now a = true := by
      apply all_of_filter_length_eq
      have := List.length_filter_le (isFresh now) l
      omega
    by_cases h2 : l.length > MAX_NOTIFICATIONS
    · rw [if_pos h2] at hn
      exact hall n ((List.take_sublist _ _).mem hn)
    · rw [if_neg h2] at hn
      exact hall n hn

/-- The fresh record of the C2 witness: created at 5, 1000000 ms timeout. -/
def c2Fresh : Notif := ⟨some "a", some 5, some 1000000, ""⟩

/-- Helper: the C2 witness record is fresh at clock 10. -/
theorem isFresh_c2Fresh : isFresh 10 c2Fresh = true := by
  simp only [isFresh, c2Fresh, tsOr0, expOrDefault, Option.getD_some,
    decide_eq_true_eq]
  norm_num

/-- Helper: reading the one-record store returns it unchanged. -/
theorem get_notifications_c2Fresh : get_notifications 10 [c2Fresh] = [c2Fresh] := by
  unfold get_notifications
  apply cleanup_eq_self_of_fresh
  · intro m hm
    rw [List.mem_singleton.mp hm]
    exact isFresh_c2Fresh
  · norm_num [MAX_NOTIFICATIONS]

/-- C2 witness: a concrete fresh record is in the read result and fresh. -/
theorem get_notifications_returns_only_fresh_witness :
    (c2Fresh ∈ get_notifications 10 [c2Fresh]) ∧ isFresh 10 c2Fresh = true := by
  have hmem : c2Fresh ∈ get_notifications 10 [c2Fresh] := by
    rw [get_notifications_c2Fresh]
    exact List.mem_singleton.mpr rfl
  exact ⟨hmem, get_notifications_returns_only_fresh 10 [c2Fresh] c2Fresh hmem⟩

/-- The expired record of the C2 counterexample: created at 0, 1000 ms
expire_timeout, so expired from clock 1 onwards. -/
def c2Expired : Notif := ⟨some "1", some 0, some 1000, ""⟩

/-- C2 counterexample: at clock 10 the record is expired
(`now - created_at > expire_timeout / 1000`), yet `get_notification` still
returns it — `get_notification` performs no expiry check. -/
theorem get_notification_returns_expired_counterexample :
    get_notification "1" [c2Expired] = some c2Expired ∧
    isFresh 10 c2Expired = false ∧
    (10 : ℚ) - tsOr0 c2Expired > expOrDefault c2Expired / 1000 := by
  refine ⟨?_, ?_, ?_⟩
  · unfold get_notification
    apply List.find?_cons_of_pos
    simp [c2Expired]
  · simp only [isFresh, c2Expired, tsOr0, expOrDefault, Option.getD_some,
      decide_eq_false_iff_not, not_le]
    norm_num
  · simp only [c2Expired, tsOr0, expOrDefault, Option.getD_some]
    norm_num

/-- C8 (amended): `remove_notification` deletes every record whose
`notification_id` matches (not only the first); it persists the snapshot and
signals a publish exactly when a deletion occurred; and with no match it is a
no-op that raises no error. -/
theorem remove_notification_filters_all (nid : String) (l : List Notif)
    (hlen : l.length ≤ MAX_NOTIFICATIONS) :
    (remove_notification nid l).1
      = l.filter (fun n => decide (n.notification_id ≠ some nid)) ∧
    ((remove_notification nid l).2 = true ↔ ∃ n ∈ l, n.notification_id = some nid) ∧
    ((∀ n ∈ l, n.notification_id ≠ some nid) → remove_notification nid l = (l, false)) := by
  have hfl := List.length_filter_le (fun n => decide (n.notification_id ≠ some nid)) l
  by_cases h : (l.filter (fun n => decide (n.notification_id ≠ some nid))).length < l.length
  · have hres : remove_notification nid l
        = (l.filter (fun n => decide (n.notification_id ≠ some nid)), true) := by
      simp only [remove_notification]
      rw [if_pos h, save_notifications_eq_self (le_trans hfl hlen)]
    have hex : ∃ n ∈ l, n.notification_id = some nid := by
      by_contra hno
      push_neg at hno
      have hall : ∀ n ∈ l, (fun n => decide (n.notification_id ≠ some nid)) n = true := by
        intro n hn
        simp only [decide_eq_true_eq]
        exact hno n hn
      rw [List.filter_eq_self.mpr hall] at h
      exact lt_irrefl _ h
    refine ⟨by rw [hres], ?_, ?_⟩
    · rw [hres]
      simpa using hex
    · intro hnone
      rcases hex with ⟨n, hn, hm⟩
      exact absurd hm (hnone n hn)
  · have heq : l.filter (fun n => decide (n.notification_id ≠ some nid)) = l :=
      (List.filter_sublist l).eq_of_length (by omega)
    have hres : remove_notification nid l = (l, false) := by
      simp only [remove_notification]
      rw [if_neg h]
    refine ⟨by rw [hres, heq], ?_, fun _ => hres⟩
    rw [hres]
    constructor
    · intro hh
      exact absurd hh (by simp)
    · rintro ⟨n, hn, hm⟩
      have hkeep := List.filter_eq_self.mp heq n hn
      simp only [decide_eq_true_eq] at hkeep
      exact absurd hm hkeep

/-- C8 witness: removing a present id from a one-record store within capacity. -/
theorem remove_notification_filters_all_witness :
    (([⟨some "1", some 0, some 1000000, "x"⟩] : List Notif)).length
        ≤ MAX_NOTIFICATIONS ∧
    ((remove_notification "1" [⟨some "1", some 0, some 1000000, "x"⟩]).2 = true ↔
      ∃ n ∈ ([⟨some "1", some 0, some 1000000, "x"⟩] : List Notif),
        n.notification_id = some "1") :=
  ⟨by decide,
    (remove_notification_filters_all "1" [⟨some "1", some 0, some 1000000, "x"⟩]
      (by decide)).2.1⟩

/-- First record of the C8 counterexample (id "1", payload "a"). -/
def c8First : Notif := ⟨some "1", some 1, some 1000000, "a"⟩

/-- Second record of the C8 counterexample (same id "1", payload "b"). -/
def c8Second : Notif := ⟨some "1", some 2, some 1000000, "b"⟩

/-- C8 counterexample: with two records sharing id "1", `remove_notification`
deletes both — not only the first — so the result is empty rather than the
one-record list that first-match deletion would leave. -/
theorem remove_notification_removes_all_counterexample :
    (remove_notification "1" [c8First, c8Second]).1 = [] ∧
    ([] : List Notif) ≠ [c8Second] := by
  constructor
  · simp only [remove_notification, c8First, c8Second]
    rw [if_pos] <;> simp [save_notifications, MAX_NOTIFICATIONS]
  · simp

/-- Helper: backfilling is the identity on a record with both keys present. -/
theorem backfill_eq_self (now : ℚ) (n : Notif)
    (hts : n.timestamp.isSome) (hexp : n.expire_timeout.isSome) :
    backfill now n = n := by
  obtain ⟨nid, ts, exp, pay⟩ := n
  cases ts with
  | none => simp at hts
  | some t =>
    cases exp with
    | none => simp at hexp
    | some e => simp [backfill]

/-- Helper: backfilling is the identity on a list of complete records. -/
theorem map_backfill_eq_self (now : ℚ) :
    ∀ l : List Notif, (∀ n ∈ l, n.timestamp.isSome ∧ n.expire_timeout.isSome) →
      l.map (backfill now) = l := by
  intro l
  induction l with
  | nil => intro; rfl
  | cons x xs ih =>
    intro h
    rw [List.map_cons,
      backfill_eq_self now x (h x (List.mem_cons_self x xs)).1
        (h x (List.mem_cons_self x xs)).2,
      ih (fun n hn => h n (List.mem_cons_of_mem x hn))]

/-- Helper: inserting below the head of a descending list puts the new record
right at the head when it is at least as recent as every element. -/
theorem insertDescByTs_eq_cons (x : Notif) (l : List Notif)
    (h : ∀ y ∈ l, tsOr0 y ≤ tsOr0 x) : insertDescByTs x l = x :: l := by
  cases l with
  | nil => rfl
  | cons y ys =>
    unfold insertDescByTs
    rw [if_neg (not_lt.mpr (h y (List.mem_cons_self y ys)))]

/-- Helper: the stable most-recent-first sort leaves a list already ordered
most-recent-first unchanged. -/
theorem sortDescByTs_eq_self_of_sorted :
    ∀ l : List Notif, List.Pairwise (fun a b => tsOr0 b ≤ tsOr0 a) l →
      sortDescByTs l = l := by
  intro l
  induction l with
  | nil => intro; rfl
  | cons x xs ih =>
    intro h
    have hx := (List.pairwise_cons.mp h).1
    have hxs := (List.pairwise_cons.mp h).2
    show insertDescByTs x (sortDescByTs xs) = x :: xs
    rw [ih hxs, insertDescByTs_eq_cons x xs hx]

/-- C3 (amended): for a collection that satisfies the store's in-memory
invariants — ordered most-recent-first, within capacity, and with both the
`timestamp` and `expire_timeout` keys present — saving and reloading the
snapshot yields exactly the in-memory enforcement pass
(`Load(Save(S)) = EnforceInvariants(S)`). -/
theorem load_save_roundtrip_eq_cleanup (now : ℚ) (S : List Notif)
    (hsort : List.Pairwise (fun a b => tsOr0 b ≤ tsOr0 a) S)
    (hfields : ∀ n ∈ S, n.timestamp.isSome ∧ n.expire_timeout.isSome)
    (hlen : S.length ≤ MAX_NOTIFICATIONS) :
    load_notifications now (save_notifications S)
      = cleanup_old_notifications now S := by
  have hsave : save_notifications S = S := save_notifications_eq_self hlen
  have hfillen : (S.filter (isFresh now)).length ≤ MAX_NOTIFICATIONS :=
    le_trans (List.length_filter_le _ S) hlen
  have hload : load_notifications now (save_notifications S)
      = S.filter (isFresh now) := by
    rw [hsave]
    unfold load_notifications
    simp only
    rw [map_backfill_eq_self now S hfields]
    rw [sortDescByTs_eq_self_of_sorted _
      (List.Pairwise.sublist (List.filter_sublist S) hsort)]
    rw [if_neg (not_lt.mpr hfillen)]
  rw [hload]
  unfold cleanup_old_notifications
  simp only
  by_cases h : (S.filter (isFresh now)).length < S.length
  · rw [if_pos h]
    exact (save_notifications_eq_self hfillen).symm
  · rw [if_neg h, if_neg (not_lt.mpr hlen)]
    exact (List.filter_sublist S).eq_of_length
      (by have := List.length_filter_le (isFresh now) S; omega)

/-- Record "a" of the C3 scenario: created at 1, fresh for 1000 s. -/
def c3A : Notif := ⟨some "a", some 1, some 1000000, "x"⟩

/-- Record "b" of the C3 scenario: created at 2, fresh for 1000 s. -/
def c3B : Notif := ⟨some "b", some 2, some 1000000, "y"⟩

/-- Helper: record "a" is fresh at clock 2. -/
theorem isFresh_c3A : isFresh 2 c3A = true := by
  simp only [isFresh, c3A, tsOr0, expOrDefault, Option.getD_some,
    decide_eq_true_eq]
  norm_num

/-- Helper: record "b" is fresh at clock 2. -/
theorem isFresh_c3B : isFresh 2 c3B = true := by
  simp only [isFresh, c3B, tsOr0, expOrDefault, Option.getD_some,
    decide_eq_true_eq]
  norm_num

/-- C3 witness: a sorted two-record in-memory collection round-trips to
exactly its enforcement pass. -/
theorem load_save_roundtrip_eq_cleanup_witness :
    List.Pairwise (fun a b => tsOr0 b ≤ tsOr0 a) [c3B, c3A] ∧
    load_notifications 2 (save_notifications [c3B, c3A])
      = cleanup_old_notifications 2 [c3B, c3A] := by
  have hsort : List.Pairwise (fun a b => tsOr0 b ≤ tsOr0 a) [c3B, c3A] := by
    simp only [List.pairwise_cons, List.mem_singleton, forall_eq,
      List.not_mem_nil, false_implies, implies_true, and_true, List.Pairwise.nil]
    simp only [c3A, c3B, tsOr0, Option.getD_some]
    norm_num
  refine ⟨hsort, load_save_roundtrip_eq_cleanup 2 [c3B, c3A] hsort ?_ ?_⟩
  · intro n hn
    rcases List.mem_cons.mp hn with rfl | hn'
    · simp [c3B]
    · rw [List.mem_singleton.mp hn']
      simp [c3A]
  · norm_num [MAX_NOTIFICATIONS]

/-- C3 counterexample: for the unsorted fresh collection [a, b] (a created at
1, b at 2), saving and reloading returns [b, a] (the loader sorts
most-recent-first) while the in-memory enforcement pass returns [a, b]
unchanged — the round-trip equality fails. -/
theorem load_save_roundtrip_counterexample :
    load_notifications 2 (save_notifications [c3A, c3B]) = [c3B, c3A] ∧
    cleanup_old_notifications 2 [c3A, c3B] = [c3A, c3B] ∧
    ([c3B, c3A] : List Notif) ≠ [c3A, c3B] := by
  have hfresh : ∀ m ∈ [c3A, c3B], isFresh 2 m = true := by
    intro m hm
    rcases List.mem_cons.mp hm with rfl | hm'
    · exact isFresh_c3A
    · rw [List.mem_singleton.mp hm']
      exact isFresh_c3B
  refine ⟨?_, ?_, ?_⟩
  · have hsave : save_notifications [c3A, c3B] = [c3A, c3B] :=
      save_notifications_eq_self (by norm_num [MAX_NOTIFICATIONS])
    rw [hsave]
    unfold load_notifications
    simp only
    have hmap : ([c3A, c3B] : List Notif).map (backfill 2) = [c3A, c3B] := by
      apply map_backfill_eq_self
      intro n hn
      rcases List.mem_cons.mp hn with rfl | hn'
      · simp [c3A]
      · rw [List.mem_singleton.mp hn']
        simp [c3B]
    rw [hmap, List.filter_eq_self.mpr hfresh]
    have hsort : sortDescByTs [c3A, c3B] = [c3B, c3A] := by
      show insertDescByTs c3A (insertDescByTs c3B []) = [c3B, c3A]
      show insertDescByTs c3A [c3B] = [c3B, c3A]
      unfold insertDescByTs
      rw [if_pos]
      · rfl
      · simp only [c3A, c3B, tsOr0, Option.getD_some]
        norm_num
    rw [hsort]
    rw [if_neg (by norm_num [MAX_NOTIFICATIONS])]
  · exact cleanup_eq_self_of_fresh 2 [c3A, c3B] hfresh
      (by norm_num [MAX_NOTIFICATIONS])
  · intro h
    have := List.head_eq_of_cons_eq h
    simp [c3A, c3B] at this

/-- Python `str.strip()`: drop leading and trailing whitespace. -/
def pyStrip (s : String) : String :=
  ⟨((s.data.dropWhile Char.isWhitespace).reverse.dropWhile Char.isWhitespace).reverse⟩

/-- Python `str.startswith(pre)`. -/
def pyStartsWith (pre s : String) : Bool := pre.data.isPrefixOf s.data

/-- Python `s[k:]`. -/
def pyDrop (k : Nat) (s : String) : String := ⟨s.data.drop k⟩

/-- The directory SPOTIFY_ALBUM_ART_DIR of config.py as a path prefix. -/
def SPOTIFY_ALBUM_ART_DIR_PATH : String := "/tmp/eww_spotify/album_art/"

/-- State of the production `AlbumArtHandler` (album_art_handler.py):
`album_art_cache` is the url-to-path dictionary (head entry shadows later
ones, mirroring assignment), `files` the set of paths existing on disk. -/
structure ArtState where
  album_art_cache : List (String × String)
  files : List String
deriving DecidableEq

/-- Python `url in cache` / `cache[url]`: first matching entry. -/
def lookupCache (cache : List (String × String)) (url : String) : Option String :=
  (cache.find? (fun e => decide (e.1 = url))).map Prod.snd

/-- `AlbumArtHandler.get_album_art_path` (album_art_handler.py:78-109).
`urlHash` abstracts the md5 hex digest of the url; `netOk` tells whether the
`requests.get` download of this call succeeds (an exception anywhere in the
try block yields None and leaves the state unchanged). The result is
(returned path, new state, whether a network download was attempted). -/
def get_album_art_path (urlHash : String → String) (netOk : Bool)
    (st : ArtState) (url : String) : Option String × ArtState × Bool :=
  if url = "" then (none, st, false)
  else
    let download : Option String × ArtState × Bool :=
      if netOk then
        let file_path := SPOTIFY_ALBUM_ART_DIR_PATH ++ urlHash url ++ ".jpg"
        (some file_path,
          ⟨(url, file_path) :: st.album_art_cache, file_path :: st.files⟩, true)
      else (none, st, true)
    match lookupCache st.album_art_cache url with
    | some cached => if cached ∈ st.files then (some cached, st, false) else download
    | none => download

/-- C5: a second `get_album_art_path` call with the same url right after a
first successful call performs no network access: the first call's result is
returned straight from the cache and the state is unchanged — so two
successive calls trigger at most one download. -/
theorem get_album_art_path_second_call_cached (urlHash : String → String)
    (st : ArtState) (url : String) (hurl : ¬ (url = "")) (b : Bool) :
    ((get_album_art_path urlHash true st url).1).isSome = true ∧
    get_album_art_path urlHash b (get_album_art_path urlHash true st url).2.1 url
      = ((get_album_art_path urlHash true st url).1,
         (get_album_art_path urlHash true st url).2.1, false) := by
  have hdl : ∀ st' : ArtState,
      lookupCache st'.album_art_cache url
          = some (SPOTIFY_ALBUM_ART_DIR_PATH ++ urlHash url ++ ".jpg") →
      (SPOTIFY_ALBUM_ART_DIR_PATH ++ urlHash url ++ ".jpg") ∈ st'.files →
      get_album_art_path urlHash b st' url
        = (some (SPOTIFY_ALBUM_ART_DIR_PATH ++ urlHash url ++ ".jpg"), st', false) := by
    intro st' hl hf
    unfold get_album_art_path
    rw [if_neg hurl, hl]
    simp only [if_pos hf]
  cases hlook : lookupCache st.album_art_cache url with
  | some cached =>
    by_cases hmem : cached ∈ st.files
    · have hr1 : get_album_art_path urlHash true st url = (some cached, st, false) := by
        unfold get_album_art_path
        rw [if_neg hurl, hlook]
        simp only [if_pos hmem]
      rw [hr1]
      constructor
      · rfl
      · show get_album_art_path urlHash b st url = (some cached, st, false)
        unfold get_album_art_path
        rw [if_neg hurl, hlook]
        simp only [if_pos hmem]
    · have hr1 : get_album_art_path urlHash true st url
          = (some (SPOTIFY_ALBUM_ART_DIR_PATH ++ urlHash url ++ ".jpg"),
             ⟨(url, SPOTIFY_ALBUM_ART_DIR_PATH ++ urlHash url ++ ".jpg")
                :: st.album_art_cache,
              (SPOTIFY_ALBUM_ART_DIR_PATH ++ urlHash url ++ ".jpg") :: st.files⟩,
             true) := by
        unfold get_album_art_path
        rw [if_neg hurl, hlook]
        simp only [if_neg hmem, if_true]
      rw [hr1]
      refine ⟨rfl, hdl _ ?_ ?_⟩
      · unfold lookupCache
        rw [List.find?_cons_of_pos _ (by simp)]
        rfl
      · exact List.mem_cons_self _ _
  | none =>
    have hr1 : get_album_art_path urlHash true st url
        = (some (SPOTIFY_ALBUM_ART_DIR_PATH ++ urlHash url ++ ".jpg"),
           ⟨(url, SPOTIFY_ALBUM_ART_DIR_PATH ++ urlHash url ++ ".jpg")
              :: st.album_art_cache,
            (SPOTIFY_ALBUM_ART_DIR_PATH ++ urlHash url ++ ".jpg") :: st.files⟩,
           true) := by
      unfold get_album_art_path
      rw [if_neg hurl, hlook]
      rfl
    rw [hr1]
    refine ⟨rfl, hdl _ ?_ ?_⟩
    · unfold lookupCache
      rw [List.find?_cons_of_pos _ (by simp)]
      rfl
    · exact List.mem_cons_self _ _

/-- C5 witness: concrete empty-cache state, url "u", then a re-resolve. -/
theorem get_album_art_path_second_call_cached_witness :
    (¬ (("u" : String) = "")) ∧
    ((get_album_art_path (fun _ => "h") true ⟨[], []⟩ "u").1).isSome = true ∧
    get_album_art_path (fun _ => "h") false
        (get_album_art_path (fun _ => "h") true ⟨[], []⟩ "u").2.1 "u"
      = ((get_album_art_path (fun _ => "h") true ⟨[], []⟩ "u").1,
         (get_album_art_path (fun _ => "h") true ⟨[], []⟩ "u").2.1, false) :=
  ⟨by simp,
    (get_album_art_path_second_call_cached (fun _ => "h") ⟨[], []⟩ "u"
      (by simp) false).1,
    (get_album_art_path_second_call_cached (fun _ => "h") ⟨[], []⟩ "u"
      (by simp) false).2⟩

/-- C9 counterexample: the production `get_album_art_path` has no local-path
branch. For a path to an existing local file that is not in the url cache,
the call goes to the download branch — a network fetch is attempted
(`requests.get` on a bare filesystem path raises MissingSchema, so the
download fails) — and the call returns None rather than the path unchanged. -/
theorem get_album_art_path_local_file_counterexample :
    get_album_art_path (fun s => s) false ⟨[], ["/home/user/pic.png"]⟩
        "/home/user/pic.png"
      = (none, ⟨[], ["/home/user/pic.png"]⟩, true) ∧
    (none : Option String) ≠ some "/home/user/pic.png" := by
  constructor
  · unfold get_album_art_path lookupCache
    simp
  · simp

/-- A file in the album-art cache directory: its path, last-modified time
(`st_mtime`) and size in bytes (`st_size`). -/
structure AFile where
  path : String
  mtime : ℚ
  size : ℚ
deriving DecidableEq

/-- Ordering of cache files by last-modified time, the sort key of the
size-eviction phase (`key=lambda x: x.stat().st_mtime`). -/
def mtimeLE (a b : AFile) : Prop := a.mtime ≤ b.mtime

instance : DecidableRel mtimeLE :=
  fun a b => inferInstanceAs (Decidable (a.mtime ≤ b.mtime))

instance : IsTotal AFile mtimeLE := ⟨fun a b => le_total a.mtime b.mtime⟩

instance : IsTrans AFile mtimeLE := ⟨fun _ _ _ hab hbc => le_trans hab hbc⟩

/-- Total size of a list of cache files. -/
def fileSizesSum (l : List AFile) : ℚ := (l.map (fun f => f.size)).sum

/-- The size-eviction loop of `cleanup_cache` (album_art_handler.py:144-159):
walk the files sorted oldest-first, removing each one and subtracting its size
from the running total, until the total is within the bound or no files
remain. Returns (removed files in removal order, surviving files). -/
def removeUntil (limit : ℚ) : ℚ → List AFile → List AFile × List AFile
  | _, [] => ([], [])
  | total, f :: fs =>
    if total ≤ limit then ([], f :: fs)
    else
      let r := removeUntil limit (total - f.size) fs
      (f :: r.1, r.2)

/-- Removal of the url-cache entries pointing at a deleted file
(album_art_handler.py:126-129 and 153-156). -/
def dropCacheEntriesFor (p : String) (cache : List (String × String)) :
    List (String × String) :=
  cache.filter (fun e => decide (e.2 ≠ p))

/-- `AlbumArtHandler.cleanup_cache` (album_art_handler.py:111-165): first
remove every file older than SPOTIFY_CACHE_MAX_AGE (and its url-cache
entries); then, if the remaining total size exceeds SPOTIFY_CACHE_MAX_SIZE,
remove files oldest-first until the bound is met or none remain. Returns
(surviving files, surviving url-cache entries, size-phase removal log). -/
def cleanup_cache (now : ℚ) (files : List AFile)
    (cache : List (String × String)) :
    List AFile × List (String × String) × List AFile :=
  let kept := files.filter (fun f => !(decide (now - f.mtime > SPOTIFY_CACHE_MAX_AGE)))
  let oldFiles := files.filter (fun f => decide (now - f.mtime > SPOTIFY_CACHE_MAX_AGE))
  let cache1 := oldFiles.foldl (fun c f => dropCacheEntriesFor f.path c) cache
  let total := fileSizesSum kept
  if total > SPOTIFY_CACHE_MAX_SIZE then
    let sortedK := List.insertionSort mtimeLE kept
    let r := removeUntil SPOTIFY_CACHE_MAX_SIZE total sortedK
    let cache2 := r.1.foldl (fun c f => dropCacheEntriesFor f.path c) cache1
    (r.2, cache2, r.1)
  else (kept, cache1, [])

/-- Helper: the removal log and the survivors partition the input. -/
theorem removeUntil_append (limit : ℚ) :
    ∀ (total : ℚ) (l : List AFile),
      (removeUntil limit total l).1 ++ (removeUntil limit total l).2 = l := by
  intro total l
  induction l generalizing total with
  | nil => rfl
  | cons f fs ih =>
    unfold removeUntil
    by_cases h : total ≤ limit
    · rw [if_pos h]
      rfl
    · rw [if_neg h]
      simp only [List.cons_append, List.cons.injEq, true_and]
      exact ih (total - f.size)

/-- Helper: if the running total is the survivors-plus-removed total, the
survivors' total size is within the bound. -/
theorem removeUntil_sum_le (limit : ℚ) (h0 : 0 ≤ limit) :
    ∀ (l : List AFile) (total : ℚ), total = fileSizesSum l →
      fileSizesSum (removeUntil limit total l).2 ≤ limit := by
  intro l
  induction l with
  | nil =>
    intro total _
    simpa [removeUntil, fileSizesSum] using h0
  | cons f fs ih =>
    intro total htot
    unfold removeUntil
    by_cases h : total ≤ limit
    · rw [if_pos h]
      simpa [htot] using (htot ▸ h)
    · rw [if_neg h]
      apply ih
      rw [htot]
      simp only [fileSizesSum, List.map_cons, List.sum_cons]
      ring

/-- C6: after a completed `cleanup_cache` pass (all stat/unlink calls
succeeding), (1) no surviving cache file is older than SPOTIFY_CACHE_MAX_AGE;
(2) the surviving files' total size is at most SPOTIFY_CACHE_MAX_SIZE (the
size loop deletes even a lone oversized file, so the bound holds outright,
which in particular implies the claim's "unless a single remaining entry
alone exceeds it" disjunction); and (3) the size-phase removals happen in
ascending order of last-modified time, oldest first. -/
theorem cleanup_cache_invariants (now : ℚ) (files : List AFile)
    (cache : List (String × String)) :
    (cleanup_cache now files cache).1.all
        (fun f => decide (now - f.mtime ≤ SPOTIFY_CACHE_MAX_AGE)) = true ∧
    fileSizesSum (cleanup_cache now files cache).1 ≤ SPOTIFY_CACHE_MAX_SIZE ∧
    List.Pairwise mtimeLE (cleanup_cache now files cache).2.2 := by
  have hmax : (0 : ℚ) ≤ SPOTIFY_CACHE_MAX_SIZE := by norm_num [SPOTIFY_CACHE_MAX_SIZE]
  have hkeptfresh : ∀ f ∈ files.filter
      (fun f => !(decide (now - f.mtime > SPOTIFY_CACHE_MAX_AGE))),
      now - f.mtime ≤ SPOTIFY_CACHE_MAX_AGE := by
    intro f hf
    have hp := (List.mem_filter.mp hf).2
    simp only [Bool.not_eq_true', decide_eq_false_iff_not, not_lt] at hp
    exact hp
  unfold cleanup_cache
  simp only
  split
  · rename_i hsz
    set kept := files.filter
      (fun f => !(decide (now - f.mtime > SPOTIFY_CACHE_MAX_AGE))) with hkeptdef
    set sortedK := List.insertionSort mtimeLE kept with hsorteddef
    have hsorted : List.Sorted mtimeLE sortedK := List.sorted_insertionSort mtimeLE kept
    have hperm : sortedK.Perm kept := List.perm_insertionSort mtimeLE kept
    have happ := removeUntil_append SPOTIFY_CACHE_MAX_SIZE (fileSizesSum kept) sortedK
    refine ⟨?_, ?_, ?_⟩
    · apply List.all_eq_true.mpr
      intro f hf
      apply decide_eq_true
      apply hkeptfresh
      apply hperm.mem_iff.mp
      have hsub2 := List.sublist_append_right
        (removeUntil SPOTIFY_CACHE_MAX_SIZE (fileSizesSum kept) sortedK).1
        (removeUntil SPOTIFY_CACHE_MAX_SIZE (fileSizesSum kept) sortedK).2
      rw [happ] at hsub2
      exact hsub2.mem hf
    · apply removeUntil_sum_le SPOTIFY_CACHE_MAX_SIZE hmax
      exact ((hperm.map (fun f => f.size)).sum_eq).symm
    · have hpw : List.Pairwise mtimeLE
          ((removeUntil SPOTIFY_CACHE_MAX_SIZE (fileSizesSum kept) sortedK).1
            ++ (removeUntil SPOTIFY_CACHE_MAX_SIZE (fileSizesSum kept) sortedK).2) := by
        have hs2 := hsorted
        rw [← happ] at hs2
        exact hs2
      exact (List.pairwise_append.mp hpw).1
  · rename_i hsz
    refine ⟨?_, not_lt.mp hsz, List.Pairwise.nil⟩
    apply List.all_eq_true.mpr
    intro f hf
    exact decide_eq_true (hkeptfresh f hf)

/-- Python `str.endswith(suf)`. -/
def pyEndsWith (suf s : String) : Bool := suf.data.isSuffixOf s.data

namespace Testing

/-- Class constant MAX_CACHE_SIZE_MB of the Testing draft handler. -/
def MAX_CACHE_SIZE_MB : ℚ := 100

/-- Class constant MAX_CACHE_AGE_DAYS of the Testing draft handler. -/
def MAX_CACHE_AGE_DAYS : ℚ := 30

/-- Class constant CLEANUP_INTERVAL_HOURS of the Testing draft handler. -/
def CLEANUP_INTERVAL_HOURS : ℚ := 24

/-- Class constant MAX_RETRIES of the Testing draft handler. -/
def MAX_RETRIES : Nat := 3

/-- Class constant RETRY_DELAY (seconds) of the Testing draft handler. -/
def RETRY_DELAY : ℚ := 1

/-- The ALBUM_ART_DIR of the Testing draft handler as a path prefix. -/
def ALBUM_ART_DIR_PATH : String := "/root/.cache/eww/spotify/"

/-- A file on disk: path, last-modified time, size in bytes. -/
structure TFile where
  path : String
  mtime : ℚ
  size : ℚ
deriving DecidableEq

/-- State of the Testing draft `AlbumArtHandler`: the url cache and metadata
dictionaries (head entry shadows), the files of the cache directory, paths
existing elsewhere on disk, and the last-cleanup clock. -/
structure TState where
  album_art_cache : List (String × String)
  album_art_metadata : List (String × ℚ × ℚ)
  files : List TFile
  otherFiles : List String
  last_cleanup_time : ℚ
deriving DecidableEq

/-- Python `os.path.exists(p)` over the modelled filesystem. -/
def existsPath (st : TState) (p : String) : Bool :=
  decide (p ∈ st.otherFiles) || st.files.any (fun f => decide (f.path = p))

/-- `get_file_size_mb` (Testing album_art_handler.py:43-45). -/
def get_file_size_mb (size : ℚ) : ℚ := size / (1024 * 1024)

/-- The `glob("*.jpg")` membership test. -/
def isJpg (f : TFile) : Bool := pyEndsWith ".jpg" f.path

/-- `get_cache_size` (Testing album_art_handler.py:47-52): total size in MB
of the `*.jpg` files of the cache directory. -/
def get_cache_size (st : TState) : ℚ :=
  ((st.files.filter isJpg).map (fun f => get_file_size_mb f.size)).sum

/-- Deletion of the url-cache entries whose path is `p` together with their
metadata entries (Testing album_art_handler.py:89-93 and 110-114). -/
def dropEntriesFor (p : String) (cache : List (String × String))
    (md : List (String × ℚ × ℚ)) :
    List (String × String) × List (String × ℚ × ℚ) :=
  let dropped := (cache.filter (fun e => decide (e.2 = p))).map Prod.fst
  (cache.filter (fun e => decide (e.2 ≠ p)),
   md.filter (fun m => decide (m.1 ∉ dropped)))

/-- `cleanup_old_files` (Testing album_art_handler.py:76-98): remove the
`*.jpg` files modified before `now - MAX_CACHE_AGE_DAYS` and their cache and
metadata entries. -/
def cleanup_old_files (now : ℚ) (st : TState) : TState :=
  let cutoff := now - MAX_CACHE_AGE_DAYS * 24 * 60 * 60
  let toRemove := st.files.filter (fun f => isJpg f && decide (f.mtime < cutoff))
  let keptFiles := st.files.filter (fun f => !(isJpg f && decide (f.mtime < cutoff)))
  let cm := toRemove.foldl
    (fun (acc : List (String × String) × List (String × ℚ × ℚ)) f =>
      dropEntriesFor f.path acc.1 acc.2)
    (st.album_art_cache, st.album_art_metadata)
  { st with files := keptFiles, album_art_cache := cm.1, album_art_metadata := cm.2 }

/-- Python `min(glob, key=mtime, default=None)`: the first file with minimal
last-modified time. -/
def minByMtime (l : List TFile) : Option TFile :=
  l.foldl (fun acc f =>
    match acc with
    | none => some f
    | some g => if f.mtime < g.mtime then some f else acc) none

/-- One-step unfolding of the `enforce_cache_size_limit` while loop (Testing
album_art_handler.py:100-122); each iteration unlinks one file, so the file
count bounds the iterations. -/
def enforceLoop : ℕ → TState → TState
  | 0, st => st
  | fuel + 1, st =>
    if get_cache_size st > MAX_CACHE_SIZE_MB then
      match minByMtime (st.files.filter isJpg) with
      | some oldest =>
        let cm := dropEntriesFor oldest.path st.album_art_cache st.album_art_metadata
        enforceLoop fuel
          { st with
            files := st.files.filter (fun f => decide (f.path ≠ oldest.path)),
            album_art_cache := cm.1, album_art_metadata := cm.2 }
      | none => st
    else st

/-- `enforce_cache_size_limit` (Testing album_art_handler.py:100-122). -/
def enforce_cache_size_limit (st : TState) : TState :=
  enforceLoop st.files.length st

/-- `check_cleanup` (Testing album_art_handler.py:124-130): run both cleanup
passes only when more than CLEANUP_INTERVAL_HOURS have passed. -/
def check_cleanup (now : ℚ) (st : TState) : TState :=
  if now - st.last_cleanup_time > CLEANUP_INTERVAL_HOURS * 60 * 60 then
    { enforce_cache_size_limit (cleanup_old_files now st) with
      last_cleanup_time := now }
  else st

/-- The url normalization of `get_album_art_path` (Testing
album_art_handler.py:160-164): strip, drop a `file://` scheme, strip again. -/
def stripSource (url : String) : String :=
  let t1 := pyStrip url
  let t2 := if pyStartsWith "file://" t1 then pyDrop 7 t1 else t1
  pyStrip t2

/-- The retry loop of `get_album_art_path` (Testing album_art_handler.py:
178-201): `rem` attempts remain, `k` is the current attempt index; returns
(attempts made, success?, sleep log). A failed attempt that is not the last
sleeps RETRY_DELAY before the next one; a failed last attempt returns None. -/
def downloadLoop (netOk : ℕ → Bool) : ℕ → ℕ → ℕ × Bool × List ℚ
  | 0, _ => (0, false, [])
  | rem + 1, k =>
    if netOk k then (1, true, [])
    else if rem = 0 then (1, false, [])
    else
      let r := downloadLoop netOk rem (k + 1)
      (r.1 + 1, r.2.1, RETRY_DELAY :: r.2.2)

/-- `get_album_art_path` of the Testing draft (album_art_handler.py:132-205),
for a string argument. `urlHash` abstracts the md5 hex digest, `netOk k` the
success of the download attempt `k`, `dlSize` the downloaded byte count. The
result is (returned path, new state, attempts made, sleep log). -/
def get_album_art_path (urlHash : String → String) (netOk : ℕ → Bool)
    (now dlSize : ℚ) (st : TState) (url_or_data : String) :
    Option String × TState × ℕ × List ℚ :=
  if url_or_data = "" then (none, st, 0, [])
  else
    let url := stripSource url_or_data
    if existsPath st url then (some url, st, 0, [])
    else
      let cache_path := ALBUM_ART_DIR_PATH ++ urlHash url ++ ".jpg"
      if existsPath st cache_path then (some cache_path, st, 0, [])
      else
        let r := downloadLoop netOk MAX_RETRIES 0
        if r.2.1 then
          let st1 : TState :=
            { st with
              files := ⟨cache_path, now, dlSize⟩ :: st.files,
              album_art_cache := (url, cache_path) :: st.album_art_cache,
              album_art_metadata :=
                (url, now, get_file_size_mb dlSize) :: st.album_art_metadata }
          (some cache_path, check_cleanup now st1, r.1, r.2.2)
        else (none, st, r.1, r.2.2)

end Testing

/-- Helper: the retry loop makes at most `rem` attempts. -/
theorem downloadLoop_attempts_le (netOk : ℕ → Bool) :
    ∀ rem k, (Testing.downloadLoop netOk rem k).1 ≤ rem := by
  intro rem
  induction rem with
  | zero => intro k; exact le_refl 0
  | succ rem ih =>
    intro k
    unfold Testing.downloadLoop
    by_cases h1 : netOk k
    · rw [if_pos h1]
      omega
    · rw [if_neg h1]
      by_cases h2 : rem = 0
      · rw [if_pos h2]
        omega
      · rw [if_neg h2]
        have := ih (k + 1)
        simp only
        omega

/-- Helper: the retry loop succeeds as soon as some attempt in range
succeeds. -/
theorem downloadLoop_succeeds (netOk : ℕ → Bool) :
    ∀ rem k, (∃ i, i < rem ∧ netOk (k + i) = true) →
      (Testing.downloadLoop netOk rem k).2.1 = true := by
  intro rem
  induction rem with
  | zero =>
    rintro k ⟨i, hi, -⟩
    omega
  | succ rem ih =>
    rintro k ⟨i, hi, hOk⟩
    unfold Testing.downloadLoop
    by_cases h1 : netOk k
    · rw [if_pos h1]
    · rw [if_neg h1]
      have hi0 : i ≠ 0 := by
        rintro rfl
        rw [Nat.add_zero] at hOk
        rw [hOk] at h1
        exact h1 rfl
      by_cases h2 : rem = 0
      · omega
      · rw [if_neg h2]
        simp only
        exact ih (k + 1) ⟨i - 1, by omega, by rw [show k + 1 + (i - 1) = k + i by omega]; exact hOk⟩

/-- Helper: when every attempt in range fails, the retry loop makes all
`rem` attempts, fails, and sleeps RETRY_DELAY between consecutive attempts. -/
theorem downloadLoop_all_fail (netOk : ℕ → Bool) :
    ∀ rem k, 1 ≤ rem → (∀ i, i < rem → netOk (k + i) = false) →
      Testing.downloadLoop netOk rem k
        = (rem, false, List.replicate (rem - 1) Testing.RETRY_DELAY) := by
  intro rem
  induction rem with
  | zero => omega
  | succ rem ih =>
    intro k _ hall
    have h1 : netOk k = false := by
      have := hall 0 (by omega)
      rwa [Nat.add_zero] at this
    unfold Testing.downloadLoop
    rw [if_neg (by rw [h1]; exact Bool.false_ne_true)]
    by_cases h2 : rem = 0
    · rw [if_pos h2]
      subst h2
      rfl
    · rw [if_neg h2]
      have hrec := ih (k + 1) (by omega)
        (fun i hi => by
          rw [show k + 1 + i = k + (i + 1) by omega]
          exact hall (i + 1) (by omega))
      simp only [hrec]
      have : rem + 1 - 1 = (rem - 1) + 1 := by omega
      rw [this, List.replicate_succ]

/-- Helper: `check_cleanup` is the identity while the cleanup interval has
not elapsed. -/
theorem check_cleanup_gate_closed (now : ℚ) (st : Testing.TState)
    (hg : ¬ (now - st.last_cleanup_time
      > Testing.CLEANUP_INTERVAL_HOURS * 60 * 60)) :
    Testing.check_cleanup now st = st := by
  unfold Testing.check_cleanup
  rw [if_neg hg]

/-- C7 (amended, on the Testing draft which is the variant with a retry
loop): for a non-empty source that is neither a local file nor already
cached, `get_album_art_path` makes at most MAX_RETRIES download attempts,
separated by a fixed delay of RETRY_DELAY seconds (not an increasing one);
if some attempt in range succeeds it returns the deterministic cache path
and records exactly one new url-cache entry and one new metadata entry
(given the opportunistic cleanup gate is closed); if every attempt fails it
returns None, records nothing, leaves the state unchanged, and — being a
total function — propagates no exception. -/
theorem testing_download_retry_spec (urlHash : String → String)
    (netOk : ℕ → Bool) (now dlSize : ℚ) (st : Testing.TState)
    (url_or_data : String)
    (hne : ¬ (url_or_data = ""))
    (hnl : Testing.existsPath st (Testing.stripSource url_or_data) = false)
    (hnc : Testing.existsPath st
      (Testing.ALBUM_ART_DIR_PATH
        ++ urlHash (Testing.stripSource url_or_data) ++ ".jpg") = false)
    (hgate : ¬ (now - st.last_cleanup_time
      > Testing.CLEANUP_INTERVAL_HOURS * 60 * 60)) :
    (Testing.get_album_art_path urlHash netOk now dlSize st url_or_data).2.2.1
        ≤ Testing.MAX_RETRIES ∧
    ((∃ i, i < Testing.MAX_RETRIES ∧ netOk i = true) →
      (Testing.get_album_art_path urlHash netOk now dlSize st url_or_data).1
          = some (Testing.ALBUM_ART_DIR_PATH
            ++ urlHash (Testing.stripSource url_or_data) ++ ".jpg") ∧
      (Testing.get_album_art_path urlHash netOk now dlSize st
          url_or_data).2.1.album_art_cache
          = (Testing.stripSource url_or_data,
             Testing.ALBUM_ART_DIR_PATH
               ++ urlHash (Testing.stripSource url_or_data) ++ ".jpg")
            :: st.album_art_cache ∧
      (Testing.get_album_art_path urlHash netOk now dlSize st
          url_or_data).2.1.album_art_metadata
          = (Testing.stripSource url_or_data, now,
             Testing.get_file_size_mb dlSize) :: st.album_art_metadata) ∧
    ((∀ i, i < Testing.MAX_RETRIES → netOk i = false) →
      Testing.get_album_art_path urlHash netOk now dlSize st url_or_data
        = (none, st, Testing.MAX_RETRIES,
           List.replicate (Testing.MAX_RETRIES - 1) Testing.RETRY_DELAY)) := by
  have hne1 : ¬ (Testing.existsPath st (Testing.stripSource url_or_data) = true) := by
    rw [hnl]
    exact Bool.false_ne_true
  have hne2 : ¬ (Testing.existsPath st
      (Testing.ALBUM_ART_DIR_PATH
        ++ urlHash (Testing.stripSource url_or_data) ++ ".jpg") = true) := by
    rw [hnc]
    exact Bool.false_ne_true
  unfold Testing.get_album_art_path
  rw [if_neg hne]
  simp only [if_neg hne1, if_neg hne2]
  refine ⟨?_, ?_, ?_⟩
  · by_cases hs : (Testing.downloadLoop netOk Testing.MAX_RETRIES 0).2.1 = true
    · rw [if_pos hs]
      exact downloadLoop_attempts_le netOk _ _
    · rw [if_neg hs]
      exact downloadLoop_attempts_le netOk _ _
  · rintro ⟨i, hi, hOk⟩
    have hs : (Testing.downloadLoop netOk Testing.MAX_RETRIES 0).2.1 = true :=
      downloadLoop_succeeds netOk _ 0 ⟨i, hi, by rwa [Nat.zero_add]⟩
    rw [if_pos hs]
    have hcc := check_cleanup_gate_closed now
      { album_art_cache :=
          (Testing.stripSource url_or_data,
           Testing.ALBUM_ART_DIR_PATH
             ++ urlHash (Testing.stripSource url_or_data) ++ ".jpg")
            :: st.album_art_cache,
        album_art_metadata :=
          (Testing.stripSource url_or_data, now,
           Testing.get_file_size_mb dlSize) :: st.album_art_metadata,
        files :=
          ⟨Testing.ALBUM_ART_DIR_PATH
             ++ urlHash (Testing.stripSource url_or_data) ++ ".jpg",
           now, dlSize⟩ :: st.files,
        otherFiles := st.otherFiles,
        last_cleanup_time := st.last_cleanup_time } (by exact hgate)
    rw [hcc]
    exact ⟨rfl, rfl, rfl⟩
  · intro hfail
    have hloop := downloadLoop_all_fail netOk Testing.MAX_RETRIES 0
      (by norm_num [Testing.MAX_RETRIES])
      (fun i hi => by rw [Nat.zero_add]; exact hfail i hi)
    rw [hloop]
    rfl

/-- C7 witness: empty state, source "https://x/y.png", first two attempts
fail and the third succeeds. -/
theorem testing_download_retry_spec_witness :
    (¬ (("https://x/y.png" : String) = "")) ∧
    Testing.existsPath ⟨[], [], [], [], 0⟩
        (Testing.stripSource "https://x/y.png") = false ∧
    (∃ i, i < Testing.MAX_RETRIES ∧ (fun k => decide (k = 2)) i = true) ∧
    ((Testing.get_album_art_path (fun _ => "h") (fun k => decide (k = 2))
        5 7 ⟨[], [], [], [], 0⟩ "https://x/y.png").1
      = some (Testing.ALBUM_ART_DIR_PATH
          ++ (fun _ => "h") (Testing.stripSource "https://x/y.png") ++ ".jpg") ∧
     (Testing.get_album_art_path (fun _ => "h") (fun k => decide (k = 2))
        5 7 ⟨[], [], [], [], 0⟩ "https://x/y.png").2.1.album_art_cache
      = [(Testing.stripSource "https://x/y.png",
          Testing.ALBUM_ART_DIR_PATH
            ++ (fun _ => "h") (Testing.stripSource "https://x/y.png") ++ ".jpg")] ∧
     (Testing.get_album_art_path (fun _ => "h") (fun k => decide (k = 2))
        5 7 ⟨[], [], [], [], 0⟩ "https://x/y.png").2.1.album_art_metadata
      = [(Testing.stripSource "https://x/y.png", 5,
          Testing.get_file_size_mb 7)]) :=
  ⟨by simp,
   by with_unfolding_all decide,
   ⟨2, by norm_num [Testing.MAX_RETRIES], by decide⟩,
   (testing_download_retry_spec (fun _ => "h") (fun k => decide (k = 2))
      5 7 ⟨[], [], [], [], 0⟩ "https://x/y.png"
      (by simp)
      (by with_unfolding_all decide)
      (by with_unfolding_all decide)
      (by norm_num [Testing.CLEANUP_INTERVAL_HOURS])).2.1
      ⟨2, by norm_num [Testing.MAX_RETRIES], by decide⟩⟩

/-- C7 counterexample: with every attempt failing, the Testing draft's
`get_album_art_path` sleeps the same fixed RETRY_DELAY between consecutive
attempts — the delay sequence is [RETRY_DELAY, RETRY_DELAY], which is not
increasing — and the production handler has no retry loop at all. -/
theorem testing_retry_delay_not_increasing_counterexample :
    Testing.get_album_art_path (fun _ => "h") (fun _ => false)
        5 7 ⟨[], [], [], [], 0⟩ "https://x/y.png"
      = (none, ⟨[], [], [], [], 0⟩, Testing.MAX_RETRIES,
         [Testing.RETRY_DELAY, Testing.RETRY_DELAY]) ∧
    ¬ (Testing.RETRY_DELAY < Testing.RETRY_DELAY) := by
  constructor
  · with_unfolding_all decide
  · exact lt_irrefl _

/-- C9 (amended, on the Testing draft which is the variant with a local-path
branch): a source string that is a path to an existing local file (no
`file://` scheme, no surrounding whitespace) is returned unchanged, with no
download attempt, no sleep, and the handler state — in particular the url
cache — untouched. -/
theorem testing_local_path_returned_unchanged (urlHash : String → String)
    (netOk : ℕ → Bool) (now dlSize : ℚ) (st : Testing.TState) (url : String)
    (hne : ¬ (url = ""))
    (hstrip : Testing.stripSource url = url)
    (hex : Testing.existsPath st url = true) :
    Testing.get_album_art_path urlHash netOk now dlSize st url
      = (some url, st, 0, []) := by
  unfold Testing.get_album_art_path
  rw [if_neg hne]
  simp only [hstrip]
  rw [if_pos hex]

/-- C9 witness: the path "/home/u/pic.png" exists on disk; the call returns
it unchanged with zero download attempts and an unchanged state. -/
theorem testing_local_path_returned_unchanged_witness :
    (¬ (("/home/u/pic.png" : String) = "")) ∧
    Testing.stripSource "/home/u/pic.png" = "/home/u/pic.png" ∧
    Testing.existsPath ⟨[], [], [], ["/home/u/pic.png"], 0⟩
        "/home/u/pic.png" = true ∧
    Testing.get_album_art_path (fun _ => "h") (fun _ => true) 5 7
        ⟨[], [], [], ["/home/u/pic.png"], 0⟩ "/home/u/pic.png"
      = (some "/home/u/pic.png", ⟨[], [], [], ["/home/u/pic.png"], 0⟩, 0, []) :=
  ⟨by simp,
   by with_unfolding_all decide,
   by with_unfolding_all decide,
   testing_local_path_returned_unchanged (fun _ => "h") (fun _ => true) 5 7
     ⟨[], [], [], ["/home/u/pic.png"], 0⟩ "/home/u/pic.png"
     (by simp)
     (by with_unfolding_all decide)
     (by with_unfolding_all decide)⟩
